import Mathlib

/-!
Verification of the EEG post-recording processing pipeline
(`src/post-recording/`): epoch segmentation, artifact rejection,
band-power integration and ratio computation.

Numeric samples are modelled as exact rationals `ℚ`; arrays are lists
indexed `[channel][time]` (signal buffers), `[epoch][channel][freq]`
(power spectra) or `[epoch][channel]` (band-power and ratio tables),
matching the numpy shapes used by the source.  Fallible code returns
`Except PipelineError`.  Library calls (mne, autoreject, scipy) whose
code is not part of this repository are modelled from the spec; each
such definition says so in its doc comment.
-/

namespace EEG

/-- Error taxonomy of spec section 7, extended with what the source can
actually raise: `invalidParameterError` also stands for the bare
`ValueError` raised by `process_eeg.py` for a bad truncation value
(the spec files it under this name), and `typeError` models Python's
`TypeError`, raised when a function is called with the wrong number of
arguments. -/
inductive PipelineError
  | invalidSignalError
  | invalidParameterError
  | invalidSpectralParameterError
  | typeError
  deriving DecidableEq, Repr

/-- SignalBuffer of the data model: ordered channel names, sample rate in
Hz, and a 2D sample array indexed [channel][time]. -/
structure SignalBuffer where
  channel_names : List String
  sample_rate : ℚ
  samples : List (List ℚ)
  deriving Repr, DecidableEq

/-- Number of time samples of a buffer (all channels share it when the
buffer is well formed). -/
def SignalBuffer.nTimes (b : SignalBuffer) : ℕ :=
  (b.samples.headD []).length

/-- Well-formedness invariant of SignalBuffer: positive sample rate, at
least one channel, and all channels of identical length. -/
def SignalBuffer.WF (b : SignalBuffer) : Prop :=
  0 < b.sample_rate ∧ b.samples ≠ [] ∧
    ∀ ch ∈ b.samples, ch.length = b.nTimes

/-- An Epoch: a fixed-duration contiguous slice of a SignalBuffer,
stored as its per-channel sample lists, indexed [channel][time]. -/
structure Epoch where
  data : List (List ℚ)
  deriving Repr, DecidableEq

/-- Frequency band table of `psd_analysis.FREQ_BANDS`:
delta (0.5, 4), theta (4, 8), alpha (8, 13), beta (13, 30),
gamma (30, 40). -/
def FREQ_BANDS : List (String × ℚ × ℚ) :=
  [("delta", 1/2, 4), ("theta", 4, 8), ("alpha", 8, 13),
   ("beta", 13, 30), ("gamma", 30, 40)]

/-- Trapezoidal integration with uniform spacing `dx`, the meaning of
`np.trapz(y, dx=dx)`: the sum of `dx * (y[i] + y[i+1]) / 2` over
consecutive pairs; an empty or single-point list integrates to 0. -/
def trapz (dx : ℚ) (ys : List ℚ) : ℚ :=
  (List.zipWith (fun a b => dx * (a + b) / 2) ys ys.tail).sum

/-- Sub-list of `row` at the positions whose frequency lies in the
closed band `[fmin, fmax]`: the meaning of `row[freq_mask]` for
`freq_mask = (freqs >= fmin) & (freqs <= fmax)` (`row` parallel to
`freqs`). -/
def maskSelect (freqs : List ℚ) (fmin fmax : ℚ) (row : List ℚ) : List ℚ :=
  ((freqs.zip row).filter
    (fun p => decide (fmin ≤ p.1) && decide (p.1 ≤ fmax))).map Prod.snd

/-- Power of one band for a whole PSD array, from
`psd_analysis.compute_band_powers`'s loop body:
`np.trapz(psds[:, :, freq_mask], dx=freq_res, axis=2)` applied
epoch-wise and channel-wise. -/
def bandPowerOf (freqs : List ℚ) (freq_res : ℚ) (fmin fmax : ℚ)
    (psds : List (List (List ℚ))) : List (List ℚ) :=
  psds.map (fun ep => ep.map (fun row =>
    trapz freq_res (maskSelect freqs fmin fmax row)))

/-- BandPowerTable: band name → [epoch][channel] integrated power, for
the five canonical bands. -/
structure BandPowerTable where
  delta : List (List ℚ)
  theta : List (List ℚ)
  alpha : List (List ℚ)
  beta : List (List ℚ)
  gamma : List (List ℚ)
  deriving Repr, DecidableEq

/-- Embedding of `psd_analysis.compute_band_powers` (with the default
band table `FREQ_BANDS`).  The source computes
`freq_res = freqs[1] - freqs[0]` inside the per-band loop, an
out-of-bounds access whenever the frequency axis has fewer than two
points, so that case is an error (`none`); otherwise each band's power
is the trapezoidal integral of the masked PSD slice against
`freq_res`. -/
def compute_band_powers (psds : List (List (List ℚ))) (freqs : List ℚ) :
    Option BandPowerTable :=
  match freqs with
  | f0 :: f1 :: _ =>
    let freq_res := f1 - f0
    some
      { delta := bandPowerOf freqs freq_res (1/2) 4 psds
        theta := bandPowerOf freqs freq_res 4 8 psds
        alpha := bandPowerOf freqs freq_res 8 13 psds
        beta := bandPowerOf freqs freq_res 13 30 psds
        gamma := bandPowerOf freqs freq_res 30 40 psds }
  | _ => none

/-- RatioTable: DAR and TAR arrays, [epoch][channel]. -/
structure RatioTable where
  dar : List (List ℚ)
  tar : List (List ℚ)
  deriving Repr, DecidableEq

/-- The epsilon of `psd_analysis.compute_ratios`: `1e-10`. -/
def ratioEpsilon : ℚ := 1 / 10 ^ 10

/-- Elementwise combination of two [epoch][channel] arrays, the meaning
of a numpy elementwise binary operation on arrays of equal shape. -/
def elementwise (f : ℚ → ℚ → ℚ) (xs ys : List (List ℚ)) :
    List (List ℚ) :=
  List.zipWith (List.zipWith f) xs ys

/-- Embedding of `psd_analysis.compute_ratios`:
`dar = delta / (alpha + epsilon)`, `tar = theta / (alpha + epsilon)`,
elementwise over the [epoch][channel] arrays. -/
def compute_ratios (bp : BandPowerTable) : RatioTable :=
  { dar := elementwise (fun d a => d / (a + ratioEpsilon)) bp.delta bp.alpha
    tar := elementwise (fun t a => t / (a + ratioEpsilon)) bp.theta bp.alpha }

/-- Modelled from the spec: samples per epoch,
`n_per_epoch = round(epoch_duration * sample_rate)` (the actual
epoching is done by the mne library calls `make_fixed_length_events` /
`Epochs` in `preprocessing.preprocess_raw`, whose code is not in this
repository). -/
def nPerEpoch (epoch_duration sample_rate : ℚ) : ℤ :=
  round (epoch_duration * sample_rate)

/-- Modelled from the spec: `Segmenter.segment` — partitions the buffer
into `floor(total_samples / n_per_epoch)` consecutive non-overlapping
epochs starting at sample 0, discarding the remainder; fails with
`InvalidParameterError` if `epoch_duration <= 0` or fewer than one full
epoch fits (mne library code missing from the repository). -/
def segment (b : SignalBuffer) (epoch_duration : ℚ) :
    Except PipelineError (List Epoch) :=
  if epoch_duration ≤ 0 then .error .invalidParameterError
  else
    let n := (nPerEpoch epoch_duration b.sample_rate).toNat
    if n = 0 then .error .invalidParameterError
    else if b.nTimes / n = 0 then .error .invalidParameterError
    else .ok ((List.range (b.nTimes / n)).map (fun i =>
      ⟨b.samples.map (fun ch => (ch.drop (i * n)).take n)⟩))

/-- Peak-to-peak amplitude of one channel within one epoch: max sample
minus min sample (glossary of the spec). -/
def ptp : List ℚ → ℚ
  | [] => 0
  | x :: xs => xs.foldl max x - xs.foldl min x

/-- An epoch violates a peak-to-peak rejection criterion when the
amplitude on at least one of its channels exceeds the threshold. -/
def exceedsThr (thr : ℚ) (e : Epoch) : Bool :=
  e.data.any (fun ch => decide (thr < ptp ch))

/-- Modelled from the spec: `epochs.drop_bad(reject=...)` of the mne
library (code missing from the repository) — keep exactly the epochs
whose peak-to-peak amplitude stays within the threshold on every
channel, in original order. -/
def dropBad (thr : ℚ) (es : List Epoch) : List Epoch :=
  es.filter (fun e => ! exceedsThr thr e)

/-- RejectLog: one bad/good flag per epoch, one integer label per
(epoch, channel) pair. -/
structure RejectLog where
  bad_epochs : List Bool
  labels : List (List ℤ)
  deriving Repr, DecidableEq

/-- Channel count shared by the epochs of one segmentation. -/
def epochChannels (es : List Epoch) : ℕ :=
  ((es.headD ⟨[]⟩).data).length

/-- Sparse rejection branch of `preprocessing.preprocess_raw`
(`n_epochs < 10`): one global peak-to-peak threshold is computed from
all candidate epochs by `get_rejection_threshold` (library code,
abstracted as the `thrFn` argument), every epoch exceeding it on any
channel is dropped, `bad_epochs` marks exactly the dropped epochs, and
the labels array is all zeros (no channel interpolation). -/
def sparseReject (thrFn : List Epoch → ℚ) (es : List Epoch) :
    List Epoch × RejectLog :=
  let thr := thrFn es
  (dropBad thr es,
   { bad_epochs := es.map (exceedsThr thr)
     labels := es.map (fun _ => List.replicate (epochChannels es) 0) })

/-- Configuration handed to the `AutoReject` library object by
`preprocessing.preprocess_raw`. -/
structure AutoRejectConfig where
  n_interpolate : List ℕ
  cv : ℕ
  random_state : ℕ
  deriving Repr, DecidableEq

/-- From the source (`preprocessing.py` lines 103-111):
`n_interpolate=[1, 2, 3, 4]`, `cv = min(5, n_epochs // 2)`,
`random_state=42`. -/
def adaptiveConfig (n_epochs : ℕ) : AutoRejectConfig :=
  { n_interpolate := [1, 2, 3, 4]
    cv := min 5 (n_epochs / 2)
    random_state := 42 }

/-- Modelled from the spec: the AutoReject library (code missing from
the repository) tries only the interpolation-count candidates that do
not exceed the channel count. -/
def triedInterpolateCounts (cfg : AutoRejectConfig) (n_channels : ℕ) :
    List ℕ :=
  cfg.n_interpolate.filter (fun k => decide (k ≤ n_channels))

/-- Rejection phase of `preprocessing.preprocess_raw` (lines 76-127):
with `n = len(epochs)`, the sparse branch runs when `n < 10` and the
`AutoReject` fit (library code, abstracted as `autoRejectFit`, given
the configuration built from `n`) runs otherwise; when `n >= 10` a
post-pass recomputes a global threshold from the surviving epochs
(`thrFn`, abstracting `get_rejection_threshold`) and drops the
survivors still exceeding it. -/
def rejectPhase (thrFn : List Epoch → ℚ)
    (autoRejectFit : AutoRejectConfig → List Epoch → List Epoch × RejectLog)
    (es : List Epoch) : List Epoch × RejectLog :=
  let n := es.length
  let primary :=
    if n < 10 then sparseReject thrFn es
    else autoRejectFit (adaptiveConfig n) es
  if 10 ≤ n then (dropBad (thrFn primary.1) primary.1, primary.2)
  else primary

/-- Bandpass corner frequencies of the source's
`raw.filter(l_freq=0.5, h_freq=40.0, fir_design='firwin')`. -/
def filterBand : ℚ × ℚ := (1/2, 40)

/-- Zero-padded sample access used by 'same'-length convolution. -/
def sampleAt (x : List ℚ) (i : ℤ) : ℚ :=
  if i < 0 then 0 else x.getD i.toNat 0

/-- Modelled from the spec: the linear-phase FIR bandpass applied by
`raw.filter` (mne library code missing from the repository), as a
'same'-length discrete convolution of one channel with a coefficient
list, centred and zero-padded, so the output has the channel's exact
length. -/
def firFilterChannel (coeffs : List ℚ) (x : List ℚ) : List ℚ :=
  (List.range x.length).map (fun (i : ℕ) =>
    ((List.range coeffs.length).map (fun (j : ℕ) =>
      coeffs.getD j 0 *
        sampleAt x (Int.ofNat i + Int.ofNat j
          - Int.ofNat (coeffs.length / 2)))).sum)

/-- Signal conditioning applied to a whole buffer: the bandpass filter
applied to every channel independently; names, rate and channel order
unchanged. -/
def conditionBuffer (coeffs : List ℚ) (b : SignalBuffer) : SignalBuffer :=
  { b with samples := b.samples.map (firFilterChannel coeffs) }

/-- Conditioning step of `preprocessing.preprocess_raw` lines 33-42:
`raw = raw.copy()` followed by in-place `raw.filter(...)`.  The state
after the call is the pair (caller's buffer, filtered working copy);
the first component is what the caller still holds. -/
def conditionStep (coeffs : List ℚ) (b : SignalBuffer) :
    SignalBuffer × SignalBuffer :=
  (b, conditionBuffer coeffs b)

/-- Total recorded duration as `process_eeg.process_eeg_recording`
computes it: `float(raw.times[-1])`, i.e. the time of the last sample,
`(n_times - 1) / sample_rate` seconds. -/
def totalDurationSec (b : SignalBuffer) : ℚ :=
  ((b.nTimes : ℚ) - 1) / b.sample_rate

/-- Embedding of `raw.crop(tmin=0.0, tmax=tmax)` (inclusive `tmax`, mne
default `include_tmax=True`): keep, per channel, the samples at indices
`i` with `i / sample_rate ≤ tmax`, i.e. the first
`⌊tmax * sample_rate⌋ + 1` samples. -/
def cropBuffer (b : SignalBuffer) (tmax : ℚ) : SignalBuffer :=
  { b with samples :=
      b.samples.map (fun ch => ch.take ((⌊tmax * b.sample_rate⌋).toNat + 1)) }

/-- Embedding of the time-limiting option of
`process_eeg.process_eeg_recording` (lines 87-97): with `seconds`
absent the buffer passes through; `seconds <= 0` fails (the source's
`ValueError`, filed as `InvalidParameterError` by the spec's taxonomy);
otherwise the buffer is cropped to
`tmax = min(seconds, total_duration)`. -/
def limitSeconds (b : SignalBuffer) : Option ℚ → Except PipelineError SignalBuffer
  | none => .ok b
  | some s =>
    if s ≤ 0 then .error .invalidParameterError
    else .ok (cropBuffer b (min s (totalDurationSec b)))

/-- One flattened output row per (epoch, channel) of
`psd_analysis.create_results_dataframe`. -/
structure ResultRow where
  epoch : ℕ
  channel : String
  delta_power : ℚ
  theta_power : ℚ
  alpha_power : ℚ
  beta_power : ℚ
  gamma_power : ℚ
  dar : ℚ
  tar : ℚ
  deriving Repr, DecidableEq

/-- Entry lookup `a[e][c]` in an [epoch][channel] array (total, with
default 0; in pipeline use the shapes always match). -/
def entryAt (a : List (List ℚ)) (e c : ℕ) : ℚ :=
  (a.getD e []).getD c 0

/-- Embedding of `psd_analysis.create_results_dataframe`: one row per
(epoch index, channel name), epoch-major order, carrying the five band
powers and the two ratios. -/
def create_results_dataframe (ch_names : List String) (n_epochs : ℕ)
    (bp : BandPowerTable) (rt : RatioTable) : List ResultRow :=
  ((List.range n_epochs).map (fun e =>
    (List.range ch_names.length).map (fun c =>
      { epoch := e
        channel := ch_names.getD c ""
        delta_power := entryAt bp.delta e c
        theta_power := entryAt bp.theta e c
        alpha_power := entryAt bp.alpha e c
        beta_power := entryAt bp.beta e c
        gamma_power := entryAt bp.gamma e c
        dar := entryAt rt.dar e c
        tar := entryAt rt.tar e c }))).flatten

/-- Modelled from the spec: the library routines the pipeline calls
whose code is missing from the repository
(`autoreject.get_rejection_threshold`, `AutoReject.fit_transform`, the
Welch PSD estimator, and the designed FIR coefficients), each a pure
function — the spec requires every stage to be deterministic given the
fixed seed carried in `AutoRejectConfig`. -/
structure LibraryModel where
  rejectionThreshold : List Epoch → ℚ
  autoRejectFit : AutoRejectConfig → List Epoch → List Epoch × RejectLog
  welchPSD : List Epoch → List (List (List ℚ)) × List ℚ
  firCoeffs : List ℚ

/-- Full pipeline of `process_eeg.process_eeg_recording`: optional
time-limiting, conditioning, segmentation, artifact rejection with
post-pass, Welch PSD, and band-power integration.  The source then
calls `compute_ratios(band_powers, channel_names)` with two arguments
(`process_eeg.py` line 149) although `psd_analysis.compute_ratios`
takes a single parameter, so that call raises `TypeError`
unconditionally and the pipeline never reaches its result table
(`create_results_dataframe` is never executed on this path). -/
def runPipeline (lib : LibraryModel) (b : SignalBuffer) (seconds : Option ℚ)
    (epoch_duration : ℚ) : Except PipelineError (List ResultRow) := do
  let limited ← limitSeconds b seconds
  let cond := conditionStep lib.firCoeffs limited
  let es ← segment cond.2 epoch_duration
  let cleaned := rejectPhase lib.rejectionThreshold lib.autoRejectFit es
  let pf := lib.welchPSD cleaned.1
  match compute_band_powers pf.1 pf.2 with
  | none => .error .invalidSpectralParameterError
  | some _ => .error .typeError

/-- Trapezoidal quadrature written as the spec words it, independently
of the code's `zipWith` formulation: each consecutive pair of selected
points contributes `dx * (a + b) / 2`, an empty or single-point range
contributes nothing. -/
def trapzPairs (dx : ℚ) : List ℚ → ℚ
  | a :: b :: rest => dx * (a + b) / 2 + trapzPairs dx (b :: rest)
  | _ => 0

/-- Band selection written as the spec words it: walk the
(frequency, power) pairs and keep the powers whose frequency lies in
the closed interval `[fmin, fmax]`. -/
def inBandSelect (fmin fmax : ℚ) : List (ℚ × ℚ) → List ℚ
  | [] => []
  | (f, p) :: rest =>
    if fmin ≤ f ∧ f ≤ fmax then p :: inBandSelect fmin fmax rest
    else inBandSelect fmin fmax rest

/-- What claim C3 asserts of one band's [epoch][channel] table: it has
one row per epoch, each entry is the trapezoidal integral (in the
spec-side formulation) of the in-band selection of that epoch/channel
PSD row, and a band covering no frequency bin integrates to exactly
0. -/
def BandIntegralSpec (freqs : List ℚ) (dx fmin fmax : ℚ)
    (psds : List (List (List ℚ))) (table : List (List ℚ)) : Prop :=
  table.length = psds.length ∧
  ∀ e c, e < psds.length → c < (psds.getD e []).length →
    entryAt table e c
        = trapzPairs dx
            (inBandSelect fmin fmax (freqs.zip ((psds.getD e []).getD c []))) ∧
    ((∀ f ∈ freqs, ¬(fmin ≤ f ∧ f ≤ fmax)) → entryAt table e c = 0)

/-- Concrete band-power table used to exercise the ratio calculator:
one epoch, one channel, delta = 3, theta = 5, alpha = 0. -/
def bpW : BandPowerTable :=
  { delta := [[3]], theta := [[5]], alpha := [[0]]
    beta := [[0]], gamma := [[0]] }

/-- Concrete library model used to exercise the pipeline: a constant
rejection threshold, an identity AutoReject fit, a fixed two-point
spectrum, and a one-tap filter. -/
def trivialLib : LibraryModel :=
  { rejectionThreshold := fun _ => 100
    autoRejectFit := fun _ es => (es, ⟨es.map (fun _ => false), []⟩)
    welchPSD := fun es => (es.map (fun e => e.data.map (fun _ => [1, 1])), [0, 1])
    firCoeffs := [1] }

/-- Concrete well-formed buffer used to exercise segmentation and
truncation: one channel, 4 Hz, 8 samples (2 seconds). -/
def bufW : SignalBuffer :=
  { channel_names := ["AF7"]
    sample_rate := 4
    samples := [[0, 1, 2, 3, 4, 5, 6, 7]] }

/-- Concrete epoch list of 10 identical flat epochs, enough to select
the adaptive rejection branch. -/
def tenEpochs : List Epoch :=
  List.replicate 10 ⟨[[0, 1], [0, 1]]⟩

/-- Concrete epoch list of 2 epochs, one quiet and one with a large
peak-to-peak excursion, for the sparse rejection branch. -/
def twoEpochs : List Epoch :=
  [⟨[[0, 5]]⟩, ⟨[[0, 2000]]⟩]

/-! ## Helper lemmas -/

lemma getD_map_of_lt {α β : Type} (f : α → β) (l : List α) (d : α)
    (d' : β) {n : ℕ} (h : n < l.length) :
    (l.map f).getD n d' = f (l.getD n d) := by
  rw [List.getD_eq_getElem _ _ (by simpa using h), List.getElem_map,
    List.getD_eq_getElem _ _ h]

lemma entryAt_elementwise (f : ℚ → ℚ → ℚ) (xs ys : List (List ℚ))
    (e c : ℕ) (hx : e < xs.length) (hy : e < ys.length)
    (hcx : c < (xs.getD e []).length) (hcy : c < (ys.getD e []).length) :
    entryAt (elementwise f xs ys) e c = f (entryAt xs e c) (entryAt ys e c) := by
  have hez : e < (List.zipWith (List.zipWith f) xs ys).length := by
    rw [List.length_zipWith]; exact lt_min hx hy
  have hcx' : c < xs[e].length := by
    rwa [List.getD_eq_getElem _ _ hx] at hcx
  have hcy' : c < ys[e].length := by
    rwa [List.getD_eq_getElem _ _ hy] at hcy
  have hcz : c < (List.zipWith f xs[e] ys[e]).length := by
    rw [List.length_zipWith]; exact lt_min hcx' hcy'
  unfold entryAt elementwise
  rw [List.getD_eq_getElem _ _ hez, List.getElem_zipWith,
    List.getD_eq_getElem _ _ hcz, List.getElem_zipWith,
    List.getD_eq_getElem _ _ hx, List.getD_eq_getElem _ _ hy,
    List.getD_eq_getElem _ _ hcx', List.getD_eq_getElem _ _ hcy']

lemma trapz_eq_trapzPairs (dx : ℚ) (ys : List ℚ) :
    trapz dx ys = trapzPairs dx ys := by
  induction ys with
  | nil => simp [trapz, trapzPairs]
  | cons a ys ih =>
    cases ys with
    | nil => simp [trapz, trapzPairs]
    | cons b rest =>
      have : trapz dx (a :: b :: rest)
          = dx * (a + b) / 2 + trapz dx (b :: rest) := by
        simp [trapz]
      rw [this, ih, trapzPairs]

lemma maskSelect_eq_inBandSelect (fmin fmax : ℚ) (l : List (ℚ × ℚ)) :
    (l.filter (fun p => decide (fmin ≤ p.1) && decide (p.1 ≤ fmax))).map
        Prod.snd
      = inBandSelect fmin fmax l := by
  induction l with
  | nil => rfl
  | cons p rest ih =>
    by_cases h : fmin ≤ p.1 ∧ p.1 ≤ fmax
    · cases p with
      | mk f v =>
        simp only [List.filter_cons, inBandSelect]
        rw [if_pos h]
        have hb : (decide (fmin ≤ (f, v).1) && decide ((f, v).1 ≤ fmax)) = true := by
          simp [h.1, h.2]
        rw [hb]
        simpa using ih
    · cases p with
      | mk f v =>
        simp only [List.filter_cons, inBandSelect]
        rw [if_neg h]
        have : (decide (fmin ≤ f) && decide (f ≤ fmax)) = false := by
          rcases not_and_or.mp h with h1 | h1 <;> simp [h1]
        rw [this]
        simpa using ih

lemma inBandSelect_nil_of_no_bin (fmin fmax : ℚ) (freqs row : List ℚ)
    (h : ∀ f ∈ freqs, ¬(fmin ≤ f ∧ f ≤ fmax)) :
    inBandSelect fmin fmax (freqs.zip row) = [] := by
  induction freqs generalizing row with
  | nil => rfl
  | cons f fs ih =>
    cases row with
    | nil => rfl
    | cons r rs =>
      simp only [List.zip_cons_cons, inBandSelect]
      rw [if_neg (h f (List.mem_cons_self f fs))]
      exact ih rs (fun g hg => h g (List.mem_cons_of_mem f hg))

lemma bandPowerOf_spec (freqs : List ℚ) (dx fmin fmax : ℚ)
    (psds : List (List (List ℚ))) :
    BandIntegralSpec freqs dx fmin fmax psds
      (bandPowerOf freqs dx fmin fmax psds) := by
  refine ⟨by simp [bandPowerOf], ?_⟩
  intro e c he hc
  have hmain : entryAt (bandPowerOf freqs dx fmin fmax psds) e c
      = trapzPairs dx
          (inBandSelect fmin fmax (freqs.zip ((psds.getD e []).getD c []))) := by
    unfold entryAt bandPowerOf
    rw [getD_map_of_lt _ _ [] _ he,
      getD_map_of_lt _ _ [] _ hc,
      trapz_eq_trapzPairs]
    unfold maskSelect
    rw [maskSelect_eq_inBandSelect]
  refine ⟨hmain, fun hno => ?_⟩
  rw [hmain, inBandSelect_nil_of_no_bin _ _ _ _ hno]
  rfl

/-! ## Claim theorems -/

/-- Claim C2: the ratio calculator returns, elementwise for every in-range
(epoch, channel), `DAR = delta / (alpha + 1e-10)` and
`TAR = theta / (alpha + 1e-10)`, the epsilon added to the denominator
unconditionally; the epsilon is nonzero, and when the alpha power is
exactly 0 the ratios equal `delta / 1e-10` and `theta / 1e-10` (no
division error). -/
theorem compute_ratios_spec (bp : BandPowerTable) (e c : ℕ)
    (hde : e < bp.delta.length) (hte : e < bp.theta.length)
    (hae : e < bp.alpha.length)
    (hdc : c < (bp.delta.getD e []).length)
    (htc : c < (bp.theta.getD e []).length)
    (hac : c < (bp.alpha.getD e []).length) :
    entryAt (compute_ratios bp).dar e c
        = entryAt bp.delta e c / (entryAt bp.alpha e c + ratioEpsilon) ∧
    entryAt (compute_ratios bp).tar e c
        = entryAt bp.theta e c / (entryAt bp.alpha e c + ratioEpsilon) ∧
    ratioEpsilon ≠ 0 ∧
    (entryAt bp.alpha e c = 0 →
      entryAt (compute_ratios bp).dar e c = entryAt bp.delta e c / ratioEpsilon ∧
      entryAt (compute_ratios bp).tar e c = entryAt bp.theta e c / ratioEpsilon) := by
  have hdar : entryAt (compute_ratios bp).dar e c
      = entryAt bp.delta e c / (entryAt bp.alpha e c + ratioEpsilon) :=
    entryAt_elementwise _ bp.delta bp.alpha e c hde hae hdc hac
  have htar : entryAt (compute_ratios bp).tar e c
      = entryAt bp.theta e c / (entryAt bp.alpha e c + ratioEpsilon) :=
    entryAt_elementwise _ bp.theta bp.alpha e c hte hae htc hac
  refine ⟨hdar, htar, by norm_num [ratioEpsilon], fun h0 => ?_⟩
  constructor
  · rw [hdar, h0, zero_add]
  · rw [htar, h0, zero_add]

/-- Witness for C2 at the concrete table `bpW` (alpha power exactly 0):
the ratios evaluate to `delta / epsilon` and `theta / epsilon`. -/
theorem compute_ratios_spec_witness :
    entryAt (compute_ratios bpW).dar 0 0 = entryAt bpW.delta 0 0 / ratioEpsilon ∧
    entryAt (compute_ratios bpW).tar 0 0 = entryAt bpW.theta 0 0 / ratioEpsilon :=
  (compute_ratios_spec bpW 0 0 (by decide) (by decide) (by decide)
    (by decide) (by decide) (by decide)).2.2.2 (by decide)

/-- Claim C3: for a frequency axis with at least two points the band
integrator succeeds, and each of the five canonical bands
(delta [0.5,4], theta [4,8], alpha [8,13], beta [13,30],
gamma [30,40]) is integrated by trapezoidal quadrature with the
frequency-resolution step as spacing over the indices in the closed
band interval; a band containing zero frequency bins yields exactly
0. -/
theorem compute_band_powers_trapezoid (psds : List (List (List ℚ)))
    (f0 f1 : ℚ) (rest : List ℚ) :
    ∃ bp, compute_band_powers psds (f0 :: f1 :: rest) = some bp ∧
      BandIntegralSpec (f0 :: f1 :: rest) (f1 - f0) (1/2) 4 psds bp.delta ∧
      BandIntegralSpec (f0 :: f1 :: rest) (f1 - f0) 4 8 psds bp.theta ∧
      BandIntegralSpec (f0 :: f1 :: rest) (f1 - f0) 8 13 psds bp.alpha ∧
      BandIntegralSpec (f0 :: f1 :: rest) (f1 - f0) 13 30 psds bp.beta ∧
      BandIntegralSpec (f0 :: f1 :: rest) (f1 - f0) 30 40 psds bp.gamma := by
  refine ⟨_, rfl, ?_, ?_, ?_, ?_, ?_⟩ <;> exact bandPowerOf_spec _ _ _ _ _

/-- Witness for C3 at a concrete one-epoch, one-channel spectrum over
the axis [0, 10, 20]. -/
theorem compute_band_powers_trapezoid_witness :
    ∃ bp, compute_band_powers [[[2, 4, 6]]] ((0 : ℚ) :: 10 :: [20]) = some bp ∧
      BandIntegralSpec ((0:ℚ) :: 10 :: [20]) (10 - 0) (1/2) 4 [[[2, 4, 6]]] bp.delta ∧
      BandIntegralSpec ((0:ℚ) :: 10 :: [20]) (10 - 0) 4 8 [[[2, 4, 6]]] bp.theta ∧
      BandIntegralSpec ((0:ℚ) :: 10 :: [20]) (10 - 0) 8 13 [[[2, 4, 6]]] bp.alpha ∧
      BandIntegralSpec ((0:ℚ) :: 10 :: [20]) (10 - 0) 13 30 [[[2, 4, 6]]] bp.beta ∧
      BandIntegralSpec ((0:ℚ) :: 10 :: [20]) (10 - 0) 30 40 [[[2, 4, 6]]] bp.gamma :=
  compute_band_powers_trapezoid [[[2, 4, 6]]] 0 10 [20]

/-- Claim C10: the band integrator reads the frequency-resolution step
from the first two axis entries, so any call with a frequency axis of
fewer than two points fails (out-of-bounds access in the source, the
error case here), even though a band covering zero bins integrates to
0. -/
theorem compute_band_powers_short_axis (psds : List (List (List ℚ)))
    (freqs : List ℚ) (h : freqs.length < 2) :
    compute_band_powers psds freqs = none ∧
    ∀ dx : ℚ, trapz dx [] = 0 := by
  refine ⟨?_, fun dx => rfl⟩
  match freqs, h with
  | [], _ => rfl
  | [f], _ => rfl

/-- Witness for C10 at a one-point frequency axis. -/
theorem compute_band_powers_short_axis_witness :
    compute_band_powers [[[1, 2]]] [(5 : ℚ)] = none ∧
    ∀ dx : ℚ, trapz dx [] = 0 :=
  compute_band_powers_short_axis [[[1, 2]]] [5] (by decide)

lemma length_filter_not_add_count_map {α : Type} (p : α → Bool)
    (es : List α) :
    (es.filter (fun e => ! p e)).length + (es.map p).count true
      = es.length := by
  induction es with
  | nil => rfl
  | cons e rest ih =>
    cases hp : p e <;>
      simp only [List.filter_cons, List.map_cons, List.count_cons, hp,
        Bool.not_true, Bool.not_false, if_true, if_false, List.length_cons] <;>
      simp <;> omega

/-- Claim C4: with fewer than 10 epochs the rejection phase is exactly
the sparse policy: one global peak-to-peak threshold computed from all
candidate epochs, every epoch exceeding it on any channel dropped (in
order), all channel labels zero (no interpolation), and
`len(clean_epochs) + bad_epochs.sum() = len(epochs)`. -/
theorem sparse_policy_spec (thrFn : List Epoch → ℚ)
    (fitFn : AutoRejectConfig → List Epoch → List Epoch × RejectLog)
    (es : List Epoch) (h : es.length < 10) :
    rejectPhase thrFn fitFn es = sparseReject thrFn es ∧
    (sparseReject thrFn es).1
        = es.filter (fun e => ! exceedsThr (thrFn es) e) ∧
    (∀ row ∈ (sparseReject thrFn es).2.labels, ∀ v ∈ row, v = 0) ∧
    (sparseReject thrFn es).1.length
        + (sparseReject thrFn es).2.bad_epochs.count true = es.length := by
  refine ⟨?_, rfl, ?_, ?_⟩
  · simp only [rejectPhase]
    rw [if_neg (by omega : ¬ 10 ≤ es.length), if_pos h]
  · intro row hrow v hv
    simp only [sparseReject, List.mem_map] at hrow
    obtain ⟨_, _, hrow⟩ := hrow
    rw [← hrow] at hv
    exact List.eq_of_mem_replicate hv
  · exact length_filter_not_add_count_map _ es

/-- Witness for C4 at the two concrete epochs of `twoEpochs` with a
constant threshold of 100 (the second epoch exceeds it). -/
theorem sparse_policy_spec_witness :
    rejectPhase (fun _ => (100 : ℚ)) trivialLib.autoRejectFit twoEpochs
        = sparseReject (fun _ => (100 : ℚ)) twoEpochs ∧
    (sparseReject (fun _ => (100 : ℚ)) twoEpochs).1
        = twoEpochs.filter (fun e => ! exceedsThr 100 e) ∧
    (∀ row ∈ (sparseReject (fun _ => (100 : ℚ)) twoEpochs).2.labels,
      ∀ v ∈ row, v = 0) ∧
    (sparseReject (fun _ => (100 : ℚ)) twoEpochs).1.length
        + (sparseReject (fun _ => (100 : ℚ)) twoEpochs).2.bad_epochs.count true
        = twoEpochs.length :=
  sparse_policy_spec (fun _ => 100) trivialLib.autoRejectFit twoEpochs
    (by decide)

/-- Claim C5: when the original epoch count is at least 10 the phase
runs a post-pass after the primary adaptive rejection — a global
threshold recomputed from the surviving epochs only, survivors still
exceeding it dropped — so the survivor count never increases across
the two passes; with fewer than 10 epochs no post-pass runs (the
result is the single-pass sparse policy). -/
theorem adaptive_postpass_spec (thrFn : List Epoch → ℚ)
    (fitFn : AutoRejectConfig → List Epoch → List Epoch × RejectLog)
    (es : List Epoch) :
    (10 ≤ es.length →
      rejectPhase thrFn fitFn es
        = (dropBad (thrFn (fitFn (adaptiveConfig es.length) es).1)
            (fitFn (adaptiveConfig es.length) es).1,
           (fitFn (adaptiveConfig es.length) es).2) ∧
      (rejectPhase thrFn fitFn es).1.length
        ≤ (fitFn (adaptiveConfig es.length) es).1.length) ∧
    (es.length < 10 →
      rejectPhase thrFn fitFn es = sparseReject thrFn es) := by
  constructor
  · intro h
    have heq : rejectPhase thrFn fitFn es
        = (dropBad (thrFn (fitFn (adaptiveConfig es.length) es).1)
            (fitFn (adaptiveConfig es.length) es).1,
           (fitFn (adaptiveConfig es.length) es).2) := by
      simp only [rejectPhase]
      rw [if_pos h, if_neg (by omega : ¬ es.length < 10)]
    refine ⟨heq, ?_⟩
    rw [heq]
    exact List.length_filter_le _ _
  · intro h
    simp only [rejectPhase]
    rw [if_neg (by omega : ¬ 10 ≤ es.length), if_pos h]

/-- Witness for C5 at the 10 concrete epochs of `tenEpochs` under the
trivial library model. -/
theorem adaptive_postpass_spec_witness :
    rejectPhase trivialLib.rejectionThreshold trivialLib.autoRejectFit tenEpochs
      = (dropBad
          (trivialLib.rejectionThreshold
            (trivialLib.autoRejectFit (adaptiveConfig tenEpochs.length) tenEpochs).1)
          (trivialLib.autoRejectFit (adaptiveConfig tenEpochs.length) tenEpochs).1,
         (trivialLib.autoRejectFit (adaptiveConfig tenEpochs.length) tenEpochs).2) ∧
    (rejectPhase trivialLib.rejectionThreshold trivialLib.autoRejectFit tenEpochs).1.length
      ≤ (trivialLib.autoRejectFit (adaptiveConfig tenEpochs.length) tenEpochs).1.length :=
  (adaptive_postpass_spec trivialLib.rejectionThreshold trivialLib.autoRejectFit
    tenEpochs).1 (by decide)

/-- Claim C6: with at least 10 epochs the phase hands the AutoReject
search a configuration with fold count `min(5, n // 2)`, fixed random
seed 42, and the interpolation-count grid `[1, 2, 3, 4]`, of which the
library tries exactly the candidates not exceeding the channel
count. -/
theorem adaptive_search_config_spec (thrFn : List Epoch → ℚ)
    (fitFn : AutoRejectConfig → List Epoch → List Epoch × RejectLog)
    (es : List Epoch) (n_channels : ℕ) (h : 10 ≤ es.length) :
    (rejectPhase thrFn fitFn es).2
        = (fitFn (adaptiveConfig es.length) es).2 ∧
    (adaptiveConfig es.length).cv = min 5 (es.length / 2) ∧
    (adaptiveConfig es.length).random_state = 42 ∧
    (adaptiveConfig es.length).n_interpolate = [1, 2, 3, 4] ∧
    (∀ k, k ∈ triedInterpolateCounts (adaptiveConfig es.length) n_channels
        ↔ (k ∈ [1, 2, 3, 4] ∧ k ≤ n_channels)) := by
  refine ⟨?_, rfl, rfl, rfl, fun k => ?_⟩
  · simp only [rejectPhase]
    rw [if_pos h, if_neg (by omega : ¬ es.length < 10)]
  · simp only [triedInterpolateCounts, List.mem_filter, decide_eq_true_eq]
    exact Iff.rfl

/-- Witness for C6 at the 10 concrete epochs of `tenEpochs` with 2
channels: with 2 channels only the candidates 1 and 2 are tried, and
the fold count is min(5, 10 // 2) = 5. -/
theorem adaptive_search_config_spec_witness :
    (rejectPhase trivialLib.rejectionThreshold trivialLib.autoRejectFit tenEpochs).2
        = (trivialLib.autoRejectFit (adaptiveConfig tenEpochs.length) tenEpochs).2 ∧
    (adaptiveConfig tenEpochs.length).cv = min 5 (tenEpochs.length / 2) ∧
    (adaptiveConfig tenEpochs.length).random_state = 42 ∧
    (adaptiveConfig tenEpochs.length).n_interpolate = [1, 2, 3, 4] ∧
    (∀ k, k ∈ triedInterpolateCounts (adaptiveConfig tenEpochs.length) 2
        ↔ (k ∈ [1, 2, 3, 4] ∧ k ≤ 2)) :=
  adaptive_search_config_spec trivialLib.rejectionThreshold
    trivialLib.autoRejectFit tenEpochs 2 (by decide)

lemma bufW_wf : bufW.WF := by
  refine ⟨by norm_num [bufW], by simp [bufW], ?_⟩
  intro ch hch
  simp only [bufW, List.mem_singleton] at hch
  subst hch
  rfl

lemma nPerEpoch_bufW_one : (nPerEpoch 1 bufW.sample_rate).toNat = 4 := by
  simp only [nPerEpoch, bufW]
  norm_num [round_eq]
  decide

lemma nPerEpoch_bufW_ten : (nPerEpoch 10 bufW.sample_rate).toNat = 40 := by
  simp only [nPerEpoch, bufW]
  norm_num [round_eq]
  decide

lemma totalDurationSec_bufW : totalDurationSec bufW = 7 / 4 := by
  simp only [totalDurationSec, SignalBuffer.nTimes, bufW]
  norm_num

lemma chunks_flatten (xs : List ℚ) (n : ℕ) (k : ℕ) (hk : k * n ≤ xs.length) :
    ((List.range k).map (fun i => (xs.drop (i * n)).take n)).flatten
      = xs.take (k * n) := by
  induction k with
  | zero => simp
  | succ k ih =>
    have hk' : k * n ≤ xs.length :=
      le_trans (Nat.mul_le_mul_right n (Nat.le_succ k)) hk
    rw [List.range_succ, List.map_append, List.flatten_append, ih hk']
    simp only [List.map_cons, List.map_nil, List.flatten_cons,
      List.flatten_nil, List.append_nil]
    rw [Nat.succ_mul, List.take_add]

/-- Claim C1: with `n = round(epoch_duration * sample_rate)` positive,
segmentation of a well-formed buffer with at least one full epoch of
samples produces exactly `total / n` epochs of exactly `n` samples per
channel, and per channel their concatenation is the first
`(total / n) * n` samples of the signal (consecutive, non-overlapping,
starting at sample 0, remainder discarded); a buffer shorter than one
epoch fails with `InvalidParameterError` instead of returning an empty
or partial epoch set. -/
theorem segment_spec (b : SignalBuffer) (d : ℚ) (n : ℕ) (hwf : b.WF)
    (hd : 0 < d) (hn : n = (nPerEpoch d b.sample_rate).toNat)
    (hpos : 0 < n) :
    (b.nTimes < n → segment b d = .error .invalidParameterError) ∧
    (n ≤ b.nTimes →
      ∃ es, segment b d = .ok es ∧
        es.length = b.nTimes / n ∧
        (∀ e ∈ es, e.data.length = b.samples.length ∧
          ∀ ch ∈ e.data, ch.length = n) ∧
        (∀ c, c < b.samples.length →
          (es.map (fun e => e.data.getD c [])).flatten
            = (b.samples.getD c []).take (b.nTimes / n * n))) := by
  subst hn
  set n := (nPerEpoch d b.sample_rate).toNat with hndef
  have hd' : ¬ d ≤ 0 := not_le.mpr hd
  have hn0 : ¬ n = 0 := by omega
  constructor
  · intro hshort
    have hdiv : b.nTimes / n = 0 := (Nat.div_eq_zero_iff hpos).mpr hshort
    simp only [segment]
    rw [if_neg hd', if_neg hn0, if_pos hdiv]
  · intro hfit
    have hdiv : ¬ b.nTimes / n = 0 := by
      rw [Nat.div_eq_zero_iff hpos]; omega
    refine ⟨(List.range (b.nTimes / n)).map (fun i =>
      ⟨b.samples.map (fun ch => (ch.drop (i * n)).take n)⟩), ?_, ?_, ?_, ?_⟩
    · simp only [segment]
      rw [if_neg hd', if_neg hn0, if_neg hdiv]
    · simp
    · intro e he
      simp only [List.mem_map, List.mem_range] at he
      obtain ⟨i, hi, rfl⟩ := he
      refine ⟨by simp, ?_⟩
      intro ch hch
      simp only [List.mem_map] at hch
      obtain ⟨orig, horig, rfl⟩ := hch
      have hlen : orig.length = b.nTimes := hwf.2.2 orig horig
      have hle : (i + 1) * n ≤ b.nTimes / n * n :=
        Nat.mul_le_mul_right n (by omega)
      have hdn : b.nTimes / n * n ≤ b.nTimes := Nat.div_mul_le_self _ _
      rw [Nat.succ_mul] at hle
      simp only [List.length_take, List.length_drop, hlen]
      omega
    · intro c hc
      have hgd : ∀ i : ℕ,
          ((⟨b.samples.map (fun ch => (ch.drop (i * n)).take n)⟩ : Epoch)).data.getD c []
            = ((b.samples.getD c []).drop (i * n)).take n := by
        intro i
        exact getD_map_of_lt _ _ [] _ hc
      rw [List.map_map]
      have : (List.range (b.nTimes / n)).map
            ((fun e : Epoch => e.data.getD c []) ∘
              (fun i => (⟨b.samples.map (fun ch => (ch.drop (i * n)).take n)⟩ : Epoch)))
          = (List.range (b.nTimes / n)).map
              (fun i => ((b.samples.getD c []).drop (i * n)).take n) :=
        List.map_congr_left (fun i _ => hgd i)
      rw [this]
      apply chunks_flatten
      have hmem : b.samples.getD c [] ∈ b.samples := by
        rw [List.getD_eq_getElem _ _ hc]
        exact List.getElem_mem hc
      rw [hwf.2.2 _ hmem]
      exact Nat.div_mul_le_self _ _

/-- Witness for C1: the 8-sample 4 Hz buffer `bufW` segments into two
4-sample epochs for a 1 s duration, and fails with
`InvalidParameterError` for a 10 s duration (shorter than one
epoch). -/
theorem segment_spec_witness :
    segment bufW 10 = Except.error PipelineError.invalidParameterError ∧
    ∃ es, segment bufW 1 = Except.ok es ∧
      es.length = bufW.nTimes / 4 ∧
      (∀ e ∈ es, e.data.length = bufW.samples.length ∧
        ∀ ch ∈ e.data, ch.length = 4) ∧
      (∀ c, c < bufW.samples.length →
        (es.map (fun e => e.data.getD c [])).flatten
          = (bufW.samples.getD c []).take (bufW.nTimes / 4 * 4)) :=
  ⟨(segment_spec bufW 10 40 bufW_wf (by norm_num) nPerEpoch_bufW_ten.symm
      (by norm_num)).1 (by decide),
   (segment_spec bufW 1 4 bufW_wf (by norm_num) nPerEpoch_bufW_one.symm
      (by norm_num)).2 (by decide)⟩

lemma cropBuffer_total (b : SignalBuffer) (hr : 0 < b.sample_rate)
    (hlen : ∀ ch ∈ b.samples, ch.length = b.nTimes) (h1 : 1 ≤ b.nTimes) :
    cropBuffer b (totalDurationSec b) = b := by
  have hrate : b.sample_rate ≠ 0 := ne_of_gt hr
  have hmul : totalDurationSec b * b.sample_rate = (b.nTimes : ℚ) - 1 := by
    unfold totalDurationSec
    field_simp
  have hfloor : ⌊totalDurationSec b * b.sample_rate⌋ = (b.nTimes : ℤ) - 1 := by
    rw [hmul]
    have : ((b.nTimes : ℚ) - 1) = (((b.nTimes : ℤ) - 1 : ℤ) : ℚ) := by
      push_cast; ring
    rw [this, Int.floor_intCast]
  have htonat : ⌊totalDurationSec b * b.sample_rate⌋.toNat + 1 = b.nTimes := by
    rw [hfloor]; omega
  unfold cropBuffer
  rw [htonat]
  have hsame : b.samples.map (fun ch => ch.take b.nTimes) = b.samples := by
    have h2 : b.samples.map (fun ch => ch.take b.nTimes)
        = b.samples.map (fun ch => ch) :=
      List.map_congr_left
        (fun ch hch => List.take_of_length_le (le_of_eq (hlen ch hch)))
    rw [h2]
    simp
  rw [hsame]

/-- Claim C7: the optional time-limiting parameter fails with
`InvalidParameterError` when non-positive, otherwise crops the buffer
to the first `min(seconds, total_duration)` seconds; a value beyond
the recording's total duration is silently clamped to the total
duration, leaving the buffer unchanged. -/
theorem limit_seconds_spec (b : SignalBuffer) (hwf : b.WF)
    (h1 : 1 ≤ b.nTimes) :
    (∀ s : ℚ, s ≤ 0 →
      limitSeconds b (some s) = .error .invalidParameterError) ∧
    (∀ s : ℚ, 0 < s →
      limitSeconds b (some s)
        = .ok (cropBuffer b (min s (totalDurationSec b)))) ∧
    (∀ s : ℚ, 0 < s → totalDurationSec b ≤ s →
      limitSeconds b (some s) = .ok b) := by
  refine ⟨fun s hs => ?_, fun s hs => ?_, fun s hs hclamp => ?_⟩
  · simp only [limitSeconds]
    rw [if_pos hs]
  · simp only [limitSeconds]
    rw [if_neg (not_le.mpr hs)]
  · simp only [limitSeconds]
    rw [if_neg (not_le.mpr hs), min_eq_right hclamp,
      cropBuffer_total b hwf.1 hwf.2.2 h1]

/-- Witness for C7: on the 2-second buffer `bufW`, `seconds = 1000`
clamps to the total duration and returns the buffer unchanged, while
`seconds = -1` fails. -/
theorem limit_seconds_spec_witness :
    limitSeconds bufW (some (-1)) = .error .invalidParameterError ∧
    limitSeconds bufW (some 1000) = .ok bufW :=
  ⟨(limit_seconds_spec bufW bufW_wf (by decide)).1 (-1) (by norm_num),
   (limit_seconds_spec bufW bufW_wf (by decide)).2.2 1000 (by norm_num)
     (by rw [totalDurationSec_bufW]; norm_num)⟩

/-- Claim C8: the signal conditioner leaves the caller's buffer
untouched (it filters an independent copy), applies the bandpass to
every channel independently, keeps channel names, order, rate, channel
count and per-channel sample counts identical, and the configured
passband is 0.5–40 Hz. -/
theorem condition_spec (coeffs : List ℚ) (b : SignalBuffer) :
    (conditionStep coeffs b).1 = b ∧
    (conditionStep coeffs b).2.channel_names = b.channel_names ∧
    (conditionStep coeffs b).2.sample_rate = b.sample_rate ∧
    (conditionStep coeffs b).2.samples
        = b.samples.map (firFilterChannel coeffs) ∧
    (conditionStep coeffs b).2.samples.map List.length
        = b.samples.map List.length ∧
    filterBand = (1/2, 40) := by
  refine ⟨rfl, rfl, rfl, rfl, ?_, rfl⟩
  show (b.samples.map (firFilterChannel coeffs)).map List.length
      = b.samples.map List.length
  rw [List.map_map]
  exact List.map_congr_left (fun ch _ => by
    show (firFilterChannel coeffs ch).length = ch.length
    unfold firFilterChannel
    rw [List.length_map, List.length_range])

/-- Claim C9 is refuted by the code: the full pipeline never produces a
ResultRecord table — every run ends in an error, and on a concrete
input where every stage up to band-power integration succeeds the
error is precisely the `TypeError` of the two-argument call
`compute_ratios(band_powers, channel_names)` at `process_eeg.py` line
149 against the one-parameter `psd_analysis.compute_ratios`, so there
are never any result tables whose byte-identity could be compared. -/
theorem runPipeline_never_yields_results :
    (∀ (lib : LibraryModel) (b : SignalBuffer) (sec : Option ℚ) (d : ℚ),
      ∃ e, runPipeline lib b sec d = Except.error e) ∧
    runPipeline trivialLib bufW none 1 = Except.error PipelineError.typeError := by
  constructor
  · intro lib b sec d
    unfold runPipeline
    cases h1 : limitSeconds b sec with
    | error e => exact ⟨e, by simp [h1, Bind.bind, Except.bind]⟩
    | ok l =>
      cases h2 : segment (conditionStep lib.firCoeffs l).2 d with
      | error e => exact ⟨e, by simp [h1, h2, Bind.bind, Except.bind]⟩
      | ok es =>
        cases h3 : compute_band_powers
            (lib.welchPSD
              (rejectPhase lib.rejectionThreshold lib.autoRejectFit es).1).1
            (lib.welchPSD
              (rejectPhase lib.rejectionThreshold lib.autoRejectFit es).1).2 with
        | none =>
          exact ⟨.invalidSpectralParameterError,
            by simp [h1, h2, h3, Bind.bind, Except.bind]⟩
        | some bp =>
          exact ⟨.typeError, by simp [h1, h2, h3, Bind.bind, Except.bind]⟩
  · with_unfolding_all rfl

end EEG
